import Mathlib

/-!
Verification of the arm-pmu performance-monitor library (perfmon.h,
perfmon.c, perfmon_state.c) against its natural-language specification.

The hardware register file of the ARM Cortex-A53 PMU (AArch32 view) is
embedded as an explicit state record.  The access primitives of perfmon.h
are modelled as pure state transformers with the architectural semantics
the header documents:

* PMCR is a mix of readable-and-writable flag bits (bits 0, 3, 4, 5, 6),
  two write-only reset-trigger bits (bit 1 resets every event counter,
  bit 2 resets the cycle counter, both read as zero), and the read-only
  five-bit NEVENTS field at bits 15:11 reporting the number of event
  counter slots.
* PMCNTENSET / PMCNTENCLR form the one-directional set / clear pair over
  a single underlying enable mask: writing a 1 bit to SET enables the
  slot, writing a 1 bit to CLR disables it, writing 0 is a no-op, and
  reading either register returns the mask.
* PMEVTYPER<n> and PMEVCNTR<n> exist for n below NEVENTS_ARCH_MAX = 8,
  matching the per-index instruction dispatch in perfmon.h; an access to
  a higher index falls through the dispatch switch, so a read yields an
  unspecified value (the junk field of the state) and a write is a no-op.
* All registers are 32 bits wide, so every read and every stored write is
  reduced modulo 2 to the 32.

C loops are embedded as structurally recursive functions carrying an
explicit iteration budget; the budget is always started at the loop bound
itself, which dominates the number of iterations, so the guard inside the
body is what terminates the loop exactly as in the source.
-/

namespace ArmPmu

/-- 2 to the 32, the size of the 32-bit register space. -/
def M32 : Nat := 2 ^ 32

/-- 32-bit complement, the C expression with a tilde applied to x on a
32-bit unsigned operand. -/
def compl32 (x : Nat) : Nat := (x % M32) ^^^ (M32 - 1)

/-- perfmon.h: number of per-slot registers the instruction dispatch can name. -/
def NEVENTS_ARCH_MAX : Nat := 8

/-- perfmon.h: PMCR bit 0, global enable of the event counters. -/
def PMCR_ENABLE_COUNTERS : Nat := 1
/-- perfmon.h: PMCR bit 1, write-only trigger resetting every event counter. -/
def PMCR_EVENT_COUNTER_RESET : Nat := 2
/-- perfmon.h: PMCR bit 2, write-only trigger resetting the cycle counter. -/
def PMCR_CYCLE_COUNTER_RESET : Nat := 4
/-- perfmon.h: shift of the NEVENTS field inside PMCR. -/
def PMCR_NEVENTS_SHIFT : Nat := 11
/-- perfmon.h: mask of the NEVENTS field inside PMCR. -/
def PMCR_NEVENTS : Nat := 31 <<< PMCR_NEVENTS_SHIFT
/-- perfmon.h: the writable PMCR bits (bits 0 through 6). -/
def PMCR_WRITABLE : Nat := 127
/-- perfmon.h: the readable PMCR bits (bits 0, 3, 4, 5, 6 and the NEVENTS field). -/
def PMCR_READABLE : Nat := 121 ||| PMCR_NEVENTS

/-- perfmon.h: the reserved chain-marker event identifier EVT_CHAIN = 0x1E. -/
def EVT_CHAIN : Nat := 30

/-- perfmon.h: flag requesting a chained 64-bit counter pair. -/
def PMU_EVENTFLAG_64BIT : Nat := 1

/-- perfmon.h return code: success. -/
def PMU_RETURN_SUCCESS : Int := 0
/-- perfmon.h return code: the event is not being watched. -/
def PMU_RETURN_EVENT_NO_WATCH : Int := -1
/-- perfmon.h return code: the event is not available on this hardware. -/
def PMU_RETURN_EVENT_NO_AVAIL : Int := -2
/-- perfmon.h return code: no open counter slot. -/
def PMU_RETURN_NO_OPEN_SLOT : Int := -3
/-- perfmon.h return code: the event is already being watched. -/
def PMU_RETURN_EVENT_ALREADY : Int := -4
/-- perfmon.h return code: the output pointer is null. -/
def PMU_RETURN_BAD_PTR : Int := -5

/-- The PMU register file.  pmcrFlags holds the writable-and-readable PMCR
flag bits, nevents the read-only hardware slot count (a five-bit field),
pmcnten the enable mask behind PMCNTENSET and PMCNTENCLR, pmevtype and
pmevcnt the per-slot event-type and count registers, pmccnt the dedicated
cycle counter, pmceid0 and pmceid1 the two capability bitmaps, and junk
the unspecified value produced by reading a per-slot register whose index
the instruction dispatch cannot name. -/
structure PMU where
  pmcrFlags : Nat
  nevents : Nat
  pmcnten : Nat
  pmuserenr : Nat
  pmevtype : Nat → Nat
  pmevcnt : Nat → Nat
  pmccnt : Nat
  pmceid0 : Nat
  pmceid1 : Nat
  junk : Nat

/-- perfmon.h pmcr_read: the readable PMCR value, flag bits plus the
NEVENTS field; the write-only reset bits read as zero. -/
def pmcr_read (s : PMU) : Nat :=
  (s.pmcrFlags &&& (PMCR_WRITABLE &&& 121)) ||| ((s.nevents % 32) <<< PMCR_NEVENTS_SHIFT)

/-- perfmon.h pmcr_write: store the writable-and-readable flag bits;
a one written to bit 1 resets every event counter and a one written to
bit 2 resets the cycle counter (both are write-only triggers). -/
def pmcr_write (s : PMU) (x : Nat) : PMU :=
  let x := x % M32
  { s with
    pmcrFlags := x &&& (PMCR_WRITABLE &&& 121)
    pmevcnt := if x &&& PMCR_EVENT_COUNTER_RESET ≠ 0 then fun _ => 0 else s.pmevcnt
    pmccnt := if x &&& PMCR_CYCLE_COUNTER_RESET ≠ 0 then 0 else s.pmccnt }

/-- perfmon.h pmcr_set. -/
def pmcr_set (s : PMU) (x : Nat) : PMU := pmcr_write s (pmcr_read s ||| x)

/-- perfmon.h pmcr_unset. -/
def pmcr_unset (s : PMU) (x : Nat) : PMU := pmcr_write s (pmcr_read s &&& compl32 x)

/-- perfmon.h pmu_nevents: number of event counter slots, from PMCR. -/
def pmu_nevents (s : PMU) : Nat := (pmcr_read s &&& PMCR_NEVENTS) >>> PMCR_NEVENTS_SHIFT

/-- perfmon.h pmu_enable. -/
def pmu_enable (s : PMU) : PMU := pmcr_set s PMCR_ENABLE_COUNTERS

/-- perfmon.h pmu_disable. -/
def pmu_disable (s : PMU) : PMU := pmcr_unset s PMCR_ENABLE_COUNTERS

/-- perfmon.h pmcntenset_read: reading PMCNTENSET returns the enable mask. -/
def pmcntenset_read (s : PMU) : Nat := s.pmcnten % M32

/-- perfmon.h pmcntenset_write: one bits enable, zero bits are a no-op. -/
def pmcntenset_write (s : PMU) (x : Nat) : PMU :=
  { s with pmcnten := (s.pmcnten % M32) ||| (x % M32) }

/-- perfmon.h pmcntenclr_write: one bits disable, zero bits are a no-op. -/
def pmcntenclr_write (s : PMU) (x : Nat) : PMU :=
  { s with pmcnten := (s.pmcnten % M32) &&& compl32 x }

/-- perfmon.h pmcnten_set. -/
def pmcnten_set (s : PMU) (x : Nat) : PMU := pmcntenset_write s x

/-- perfmon.h pmcnten_unset. -/
def pmcnten_unset (s : PMU) (x : Nat) : PMU := pmcntenclr_write s x

/-- perfmon.h pmcnten_enable: enable event counter n. -/
def pmcnten_enable (s : PMU) (n : Nat) : PMU := pmcnten_set s ((1 <<< n) % M32)

/-- perfmon.h pmcnten_disable: disable event counter n. -/
def pmcnten_disable (s : PMU) (n : Nat) : PMU := pmcnten_unset s ((1 <<< n) % M32)

/-- perfmon.h pmevtyper_read: event-type register n, or an unspecified
value when the dispatch switch has no case for n. -/
def pmevtyper_read (s : PMU) (n : Nat) : Nat :=
  if n < NEVENTS_ARCH_MAX then s.pmevtype n % M32 else s.junk % M32

/-- perfmon.h pmevtyper_write: write event-type register n; a no-op when
the dispatch switch has no case for n. -/
def pmevtyper_write (s : PMU) (n v : Nat) : PMU :=
  if n < NEVENTS_ARCH_MAX then
    { s with pmevtype := fun m => if m = n then v % M32 else s.pmevtype m }
  else s

/-- perfmon.h pmevtyper_get: the event-type register masked to its low
bits, the mask being one shifted left eleven minus one. -/
def pmevtyper_get (s : PMU) (n : Nat) : Nat :=
  pmevtyper_read s n &&& ((1 <<< 11) - 1)

/-- perfmon.h pmevtyper_set: keep the high bits of the register (the C
mask is the complement of zero shifted left by ten), or in the event. -/
def pmevtyper_set (s : PMU) (n event : Nat) : PMU :=
  pmevtyper_write s n (event ||| (pmevtyper_read s n &&& ((compl32 0 <<< 10) % M32)))

/-- perfmon.h pmevcntr_read: event count register n, or an unspecified
value when the dispatch switch has no case for n. -/
def pmevcntr_read (s : PMU) (n : Nat) : Nat :=
  if n < NEVENTS_ARCH_MAX then s.pmevcnt n % M32 else s.junk % M32

/-- perfmon.h pmevcntr_write: write event count register n; a no-op when
the dispatch switch has no case for n. -/
def pmevcntr_write (s : PMU) (n v : Nat) : PMU :=
  if n < NEVENTS_ARCH_MAX then
    { s with pmevcnt := fun m => if m = n then v % M32 else s.pmevcnt m }
  else s

/-- perfmon.h pmevcntr_reset. -/
def pmevcntr_reset (s : PMU) (n : Nat) : PMU := pmevcntr_write s n 0

/-- perfmon.h pmu_event_set: enable slot n, set its event type, reset its count. -/
def pmu_event_set (s : PMU) (n event : Nat) : PMU :=
  pmevcntr_reset (pmevtyper_set (pmcnten_enable s n) n event) n

/-- perfmon.h pmevcntr_reset_all: trigger the PMCR event-counter reset bit. -/
def pmevcntr_reset_all (s : PMU) : PMU := pmcr_set s PMCR_EVENT_COUNTER_RESET

/-- perfmon.h pmccntr_reset: trigger the PMCR cycle-counter reset bit. -/
def pmccntr_reset (s : PMU) : PMU := pmcr_set s PMCR_CYCLE_COUNTER_RESET

/-- perfmon.h pmccntr_read_32: lower 32 bits of the cycle counter. -/
def pmccntr_read_32 (s : PMU) : Nat := s.pmccnt % M32

/-- perfmon.h pmuserenr_read. -/
def pmuserenr_read (s : PMU) : Nat := s.pmuserenr % M32

/-- perfmon.h pmuserenr_write. -/
def pmuserenr_write (s : PMU) (x : Nat) : PMU := { s with pmuserenr := x % M32 }

/-- perfmon.h pmceid0_read. -/
def pmceid0_read (s : PMU) : Nat := s.pmceid0 % M32

/-- perfmon.h pmceid0_isset. -/
def pmceid0_isset (s : PMU) (x : Nat) : Bool := decide ((pmceid0_read s &&& x) = x)

/-- perfmon.h pmceid1_read. -/
def pmceid1_read (s : PMU) : Nat := s.pmceid1 % M32

/-- perfmon.h pmceid1_isset. -/
def pmceid1_isset (s : PMU) (x : Nat) : Bool := decide ((pmceid1_read s &&& x) = x)

/-- perfmon.c pmcnten_get: the enable mask restricted to the first
nevents bits. -/
def pmcnten_get (s : PMU) : Nat :=
  pmcntenset_read s &&& ((1 <<< pmu_nevents s) - 1)

/-- perfmon.c pmcnten_get_open, 64-bit branch: the C loop over even i
below nevents testing the expression set ampersand binary-eleven
shifted left i compared equal to zero; by C precedence the equality
binds before the ampersand, so the tested value is set ampersand the
zero-or-one outcome of that comparison. -/
def pmcnten_get_open_wide (set nevents : Nat) : Nat → Nat → Int
  | 0, _ => PMU_RETURN_NO_OPEN_SLOT
  | fuel + 1, i =>
    if i < nevents then
      if set &&& (if (3 <<< i) % M32 = 0 then 1 else 0) ≠ 0 then (i : Int)
      else pmcnten_get_open_wide set nevents fuel (i + 2)
    else PMU_RETURN_NO_OPEN_SLOT

/-- perfmon.c pmcnten_get_open, single branch: the C loop over i below
nevents testing set ampersand one shifted left i compared equal to zero,
again with the equality binding before the ampersand. -/
def pmcnten_get_open_single (set nevents : Nat) : Nat → Nat → Int
  | 0, _ => PMU_RETURN_NO_OPEN_SLOT
  | fuel + 1, i =>
    if i < nevents then
      if set &&& (if (1 <<< i) % M32 = 0 then 1 else 0) ≠ 0 then (i : Int)
      else pmcnten_get_open_single set nevents fuel (i + 1)
    else PMU_RETURN_NO_OPEN_SLOT

/-- perfmon.c pmcnten_get_open. -/
def pmcnten_get_open (s : PMU) (flags : Nat) : Int :=
  let set := pmcnten_get s
  let nevents := pmu_nevents s
  if flags &&& PMU_EVENTFLAG_64BIT ≠ 0 then
    pmcnten_get_open_wide set nevents nevents 0
  else
    pmcnten_get_open_single set nevents nevents 0

/-- perfmon.c pmcnten_get_event_bit, loop body: scan slots in increasing
order; a slot participates when its enable bit is set and its event-type
register matches the requested event. -/
def pmcnten_get_event_bit_go (s : PMU) (set event nevents : Nat) : Nat → Nat → Int
  | 0, _ => PMU_RETURN_EVENT_NO_WATCH
  | fuel + 1, i =>
    if i < nevents then
      if set &&& ((1 <<< i) % M32) ≠ 0 then
        if pmevtyper_get s i = event then (i : Int)
        else pmcnten_get_event_bit_go s set event nevents fuel (i + 1)
      else pmcnten_get_event_bit_go s set event nevents fuel (i + 1)
    else PMU_RETURN_EVENT_NO_WATCH

/-- perfmon.c pmcnten_get_event_bit. -/
def pmcnten_get_event_bit (s : PMU) (event : Nat) : Int :=
  pmcnten_get_event_bit_go s (pmcnten_get s) event (pmu_nevents s) (pmu_nevents s) 0

/-- perfmon.c pmu_event_available: events above 63 are unavailable;
events above 31 are looked up in PMCEID1 after subtracting 31 (as the
source does), the rest in PMCEID0; the shifted bit is a 32-bit value. -/
def pmu_event_available (s : PMU) (event : Nat) : Bool :=
  if event > 63 then false
  else if event > 31 then
    pmceid1_isset s ((1 <<< (event - 31)) % M32)
  else
    pmceid0_isset s ((1 <<< event) % M32)

/-- perfmon.c pmu_event_add. -/
def pmu_event_add (s : PMU) (event flags : Nat) : Int × PMU :=
  if pmu_event_available s event = false then (PMU_RETURN_EVENT_NO_AVAIL, s)
  else if 0 ≤ pmcnten_get_event_bit s event then (PMU_RETURN_EVENT_ALREADY, s)
  else
    let i := pmcnten_get_open s flags
    if i < 0 then (i, s)
    else
      let s1 := pmu_event_set s i.toNat event
      let s2 :=
        if flags &&& PMU_EVENTFLAG_64BIT ≠ 0 then pmu_event_set s1 (i.toNat + 1) EVT_CHAIN
        else s1
      (PMU_RETURN_SUCCESS, s2)

/-- perfmon.c pmu_event_remove. -/
def pmu_event_remove (s : PMU) (event flags : Nat) : Int × PMU :=
  let bit := pmcnten_get_event_bit s event
  if bit < 0 then (bit, s)
  else
    let s1 := pmcnten_disable s bit.toNat
    let bit1 := bit.toNat + 1
    if bit1 < pmu_nevents s1 then
      if pmevtyper_get s1 bit1 = EVT_CHAIN then (PMU_RETURN_SUCCESS, pmcnten_disable s1 bit1)
      else (PMU_RETURN_SUCCESS, s1)
    else (PMU_RETURN_SUCCESS, s1)

/-- perfmon.c pmu_event_reset. -/
def pmu_event_reset (s : PMU) (event flags : Nat) : Int × PMU :=
  let bit := pmcnten_get_event_bit s event
  if bit < 0 then (bit, s)
  else
    let bit1 := bit.toNat + 1
    let s1 :=
      if bit1 < pmu_nevents s then
        if pmevtyper_get s bit1 = EVT_CHAIN then pmevcntr_reset s bit1 else s
      else s
    (PMU_RETURN_SUCCESS, pmevcntr_reset s1 (bit1 - 1))

/-- perfmon.c pmu_event_read_32: the null output pointer is represented
by the ptrNull flag; the second component is the value stored through
the pointer, when one is stored. -/
def pmu_event_read_32 (s : PMU) (event flags : Nat) (ptrNull : Bool) : Int × Option Nat :=
  let bit := pmcnten_get_event_bit s event
  if bit < 0 then (bit, none)
  else if ptrNull then (PMU_RETURN_BAD_PTR, none)
  else (bit, some (pmevcntr_read s bit.toNat))

/-- Modelled from the spec: pmevcntr_read_64 is called by pmu_event_get
but is defined nowhere under src.  The spec says the primary count is
the low 32 bits and the next count register supplies the high 32 bits,
combined as low or-ed with high shifted left 32. -/
def pmevcntr_read_64 (s : PMU) (n : Nat) : Nat :=
  pmevcntr_read s n ||| (pmevcntr_read s (n + 1) <<< 32)

/-- Modelled from the spec: the ULL macro is used by pmu_event_get but is
defined nowhere under src.  The spec says the 32-bit value is
zero-extended to 64 bits, so ULL combines a low and a high half. -/
def ULL (low high : Nat) : Nat := low ||| (high <<< 32)

/-- perfmon.c pmu_event_get: the chain test requires the slot index to be
even and the next event-type register to hold EVT_CHAIN; the bounds test
against pmu_nevents is commented out in the source. -/
def pmu_event_get (s : PMU) (event flags : Nat) (ptrNull : Bool) : Int × Option Nat :=
  let bit := pmcnten_get_event_bit s event
  if bit < 0 then (bit, none)
  else if ptrNull then (PMU_RETURN_BAD_PTR, none)
  else if bit.toNat % 2 = 0 ∧ pmevtyper_get s (bit.toNat + 1) = EVT_CHAIN then
    (bit, some (pmevcntr_read_64 s bit.toNat))
  else
    (bit, some (ULL (pmevcntr_read s bit.toNat) 0))

/-- perfmon.c pmu_disable_all: clear every enable bit, reset all event
counters and the cycle counter, then disable the PMU globally. -/
def pmu_disable_all (s : PMU) : PMU :=
  pmu_disable (pmccntr_reset (pmevcntr_reset_all (pmcntenclr_write s (compl32 0))))

/-- perfmon_state.c: the module-level snapshot globals. -/
structure PMUSnapshot where
  state_pmcr : Nat
  state_pmcnten : Nat
  state_pmuserenr : Nat
  state_pmevtype : Nat → Nat

/-- perfmon_state.c pmu_load: record PMCR, enable the PMU, record the
user-enable register, the enable mask and the first nevents event-type
registers. -/
def pmu_load (s : PMU) : PMU × PMUSnapshot :=
  let state_pmcr := pmcr_read s
  let s1 := pmu_enable s
  let state_pmuserenr := pmuserenr_read s1
  let state_pmcnten := pmcntenset_read s1
  let nevents := pmu_nevents s1
  (s1,
   { state_pmcr := state_pmcr
     state_pmcnten := state_pmcnten
     state_pmuserenr := state_pmuserenr
     state_pmevtype := fun i => if i < nevents then pmevtyper_read s1 i else 0 })

/-- perfmon_state.c pmu_unload, event-type loop: write the first nevents
captured event-type registers back. -/
def pmu_unload_go (snap : PMUSnapshot) (nevents : Nat) : Nat → Nat → PMU → PMU
  | 0, _, s => s
  | fuel + 1, i, s =>
    if i < nevents then
      pmu_unload_go snap nevents fuel (i + 1) (pmevtyper_write s i (snap.state_pmevtype i))
    else s

/-- perfmon_state.c pmu_unload: restore the event-type registers, then
the enable mask through both the set and the clear register, then the
user-enable register, then PMCR last. -/
def pmu_unload (snap : PMUSnapshot) (s : PMU) : PMU :=
  let nevents := pmu_nevents s
  let s1 := pmu_unload_go snap nevents nevents 0 s
  let s2 := pmcntenset_write s1 snap.state_pmcnten
  let s3 := pmcntenclr_write s2 (compl32 snap.state_pmcnten)
  let s4 := pmuserenr_write s3 snap.state_pmuserenr
  pmcr_write s4 snap.state_pmcr

/-! ## Concrete register states used by witnesses and counterexamples -/

/-- A PMU state with four slots, all free, events 0 through 7 available. -/
def stateC1 : PMU :=
  { pmcrFlags := 1, nevents := 4, pmcnten := 0, pmuserenr := 0,
    pmevtype := fun _ => 0, pmevcnt := fun _ => 0, pmccnt := 0,
    pmceid0 := 255, pmceid1 := 0, junk := 0 }

/-- Slot 1 is enabled and bound to event 17, slot 2 holds the chain
marker in its event-type register, counts are 5 and 7. -/
def stateC2cex : PMU :=
  { pmcrFlags := 1, nevents := 4, pmcnten := 2, pmuserenr := 0,
    pmevtype := fun n => if n = 1 then 17 else if n = 2 then 30 else 0,
    pmevcnt := fun n => if n = 1 then 5 else if n = 2 then 7 else 0, pmccnt := 0,
    pmceid0 := 255, pmceid1 := 0, junk := 0 }

/-- Slot 0 is bound to event 17 with slot 1 as chain continuation; the
primary count is 4294967295 and the continuation count is 1. -/
def stateC2w : PMU :=
  { pmcrFlags := 1, nevents := 4, pmcnten := 3, pmuserenr := 0,
    pmevtype := fun n => if n = 0 then 17 else if n = 1 then 30 else 0,
    pmevcnt := fun n => if n = 0 then 4294967295 else if n = 1 then 1 else 0, pmccnt := 0,
    pmceid0 := 255, pmceid1 := 0, junk := 0 }

/-- A state whose PMCEID1 capability bitmap has exactly bit 0 set. -/
def stateC3 : PMU :=
  { pmcrFlags := 1, nevents := 4, pmcnten := 0, pmuserenr := 0,
    pmevtype := fun _ => 0, pmevcnt := fun _ => 0, pmccnt := 0,
    pmceid0 := 0, pmceid1 := 1, junk := 0 }

/-- A state with nontrivial values in every register. -/
def stateC4w : PMU :=
  { pmcrFlags := 89, nevents := 6, pmcnten := 37, pmuserenr := 1,
    pmevtype := fun n => n * 3 + 1, pmevcnt := fun n => n + 100, pmccnt := 7,
    pmceid0 := 17, pmceid1 := 5, junk := 9 }

/-- Slot 0 is enabled and bound to event 17 and slot 1 is its enabled
chain continuation; counts are 9 and 13. -/
def stateC6w : PMU :=
  { pmcrFlags := 1, nevents := 4, pmcnten := 3, pmuserenr := 0,
    pmevtype := fun n => if n = 0 then 17 else if n = 1 then 30 else 0,
    pmevcnt := fun n => if n = 0 then 9 else if n = 1 then 13 else 0, pmccnt := 0,
    pmceid0 := 255, pmceid1 := 0, junk := 0 }

/-- A state restored from in the C7 witness. -/
def stateC7w : PMU :=
  { pmcrFlags := 0, nevents := 6, pmcnten := 63, pmuserenr := 0,
    pmevtype := fun n => n + 50, pmevcnt := fun n => n + 200, pmccnt := 3,
    pmceid0 := 17, pmceid1 := 5, junk := 9 }

/-- A snapshot with nontrivial contents for the C7 witness. -/
def snapC7w : PMUSnapshot :=
  { state_pmcr := 89, state_pmcnten := 5, state_pmuserenr := 1,
    state_pmevtype := fun i => i + 40 }

/-- Four free slots, events 0 through 7 available: add fails with
NoOpenSlot, remove and reset fail with EventNotWatched. -/
def stateC8w : PMU :=
  { pmcrFlags := 1, nevents := 4, pmcnten := 0, pmuserenr := 0,
    pmevtype := fun _ => 0, pmevcnt := fun _ => 0, pmccnt := 0,
    pmceid0 := 255, pmceid1 := 0, junk := 0 }

/-- A fully populated state for the disable-all witness. -/
def stateC9w : PMU :=
  { pmcrFlags := 89, nevents := 6, pmcnten := 63, pmuserenr := 1,
    pmevtype := fun n => n * 3 + 1, pmevcnt := fun n => n + 100, pmccnt := 7,
    pmceid0 := 17, pmceid1 := 5, junk := 9 }

/-- Slot 1 is enabled and bound to event 17; slot 0 is free, so the
bound slot index is 1, not 0. -/
def stateC10w : PMU :=
  { pmcrFlags := 1, nevents := 4, pmcnten := 2, pmuserenr := 0,
    pmevtype := fun n => if n = 1 then 17 else 0,
    pmevcnt := fun n => if n = 1 then 5 else 0, pmccnt := 0,
    pmceid0 := 255, pmceid1 := 0, junk := 0 }

/-! ## Helper lemmas -/

theorem pmu_nevents_lt (s : PMU) : pmu_nevents s < 32 := by
  have h1 : pmcr_read s &&& PMCR_NEVENTS ≤ PMCR_NEVENTS := Nat.and_le_right
  have h2 : (pmcr_read s &&& PMCR_NEVENTS) >>> PMCR_NEVENTS_SHIFT ≤
      PMCR_NEVENTS >>> PMCR_NEVENTS_SHIFT := by
    simp only [Nat.shiftRight_eq_div_pow]
    exact Nat.div_le_div_right h1
  have h3 : PMCR_NEVENTS >>> PMCR_NEVENTS_SHIFT < 32 := by decide
  exact lt_of_le_of_lt h2 h3

theorem shift3_mod_ne_zero : ∀ i < 32, (3 <<< i) % M32 ≠ 0 := by decide

theorem shift1_mod_ne_zero : ∀ i < 32, (1 <<< i) % M32 ≠ 0 := by decide

theorem get_open_wide_no_slot (set nevents : Nat) (hn : nevents ≤ 32) :
    ∀ fuel i, pmcnten_get_open_wide set nevents fuel i = PMU_RETURN_NO_OPEN_SLOT := by
  intro fuel
  induction fuel with
  | zero => intro i; rfl
  | succ fuel ih =>
    intro i
    rw [pmcnten_get_open_wide]
    by_cases h : i < nevents
    · have h3 := shift3_mod_ne_zero i (lt_of_lt_of_le h hn)
      simp [h, h3, ih]
    · simp [h]

theorem get_open_single_no_slot (set nevents : Nat) (hn : nevents ≤ 32) :
    ∀ fuel i, pmcnten_get_open_single set nevents fuel i = PMU_RETURN_NO_OPEN_SLOT := by
  intro fuel
  induction fuel with
  | zero => intro i; rfl
  | succ fuel ih =>
    intro i
    rw [pmcnten_get_open_single]
    by_cases h : i < nevents
    · have h1 := shift1_mod_ne_zero i (lt_of_lt_of_le h hn)
      simp [h, h1, ih]
    · simp [h]

theorem get_open_no_slot (s : PMU) (flags : Nat) :
    pmcnten_get_open s flags = PMU_RETURN_NO_OPEN_SLOT := by
  have hn : pmu_nevents s ≤ 32 := Nat.le_of_lt (pmu_nevents_lt s)
  unfold pmcnten_get_open
  by_cases h : flags &&& PMU_EVENTFLAG_64BIT ≠ 0
  · simp [h, get_open_wide_no_slot _ _ hn]
  · simp [h, get_open_single_no_slot _ _ hn]

theorem get_event_bit_go_none (s : PMU) (set event nevents : Nat)
    (hnone : ∀ j, j < nevents → set &&& ((1 <<< j) % M32) ≠ 0 → pmevtyper_get s j ≠ event) :
    ∀ fuel i,
      pmcnten_get_event_bit_go s set event nevents fuel i = PMU_RETURN_EVENT_NO_WATCH := by
  intro fuel
  induction fuel with
  | zero => intro i; rfl
  | succ fuel ih =>
    intro i
    rw [pmcnten_get_event_bit_go]
    by_cases h : i < nevents
    · by_cases he : set &&& ((1 <<< i) % M32) ≠ 0
      · have hm := hnone i h he
        simp [h, he, hm, ih]
      · simp [h, he, ih]
    · simp [h]

theorem get_event_bit_go_cases (s : PMU) (set event nevents : Nat) :
    ∀ fuel i,
      pmcnten_get_event_bit_go s set event nevents fuel i = PMU_RETURN_EVENT_NO_WATCH ∨
      ∃ b : Nat, pmcnten_get_event_bit_go s set event nevents fuel i = (b : Int) ∧
        i ≤ b ∧ b < nevents ∧ set &&& ((1 <<< b) % M32) ≠ 0 ∧ pmevtyper_get s b = event := by
  intro fuel
  induction fuel with
  | zero => intro i; exact Or.inl rfl
  | succ fuel ih =>
    intro i
    rw [pmcnten_get_event_bit_go]
    by_cases h : i < nevents
    · by_cases he : set &&& ((1 <<< i) % M32) ≠ 0
      · by_cases hm : pmevtyper_get s i = event
        · refine Or.inr ⟨i, ?_⟩
          simp [h, he, hm]
        · rcases ih (i + 1) with hrec | ⟨b, hb, hib, hbn, hbe, hbm⟩
          · exact Or.inl (by simp [h, he, hm, hrec])
          · exact Or.inr ⟨b, by simp [h, he, hm, hb], by omega, hbn, hbe, hbm⟩
      · rcases ih (i + 1) with hrec | ⟨b, hb, hib, hbn, hbe, hbm⟩
        · exact Or.inl (by simp [h, he, hrec])
        · exact Or.inr ⟨b, by simp [h, he, hb], by omega, hbn, hbe, hbm⟩
    · exact Or.inl (by simp [h])

theorem get_event_bit_cases (s : PMU) (event : Nat) :
    pmcnten_get_event_bit s event = PMU_RETURN_EVENT_NO_WATCH ∨
    ∃ b : Nat, pmcnten_get_event_bit s event = (b : Int) ∧ b < pmu_nevents s ∧
      pmcnten_get s &&& ((1 <<< b) % M32) ≠ 0 ∧ pmevtyper_get s b = event := by
  rcases get_event_bit_go_cases s (pmcnten_get s) event (pmu_nevents s) (pmu_nevents s) 0 with
    h | ⟨b, hb, _, hbn, hbe, hbm⟩
  · exact Or.inl h
  · exact Or.inr ⟨b, hb, hbn, hbe, hbm⟩

theorem get_event_bit_neg (s : PMU) (event : Nat)
    (h : pmcnten_get_event_bit s event < 0) :
    pmcnten_get_event_bit s event = PMU_RETURN_EVENT_NO_WATCH := by
  rcases get_event_bit_cases s event with h1 | ⟨b, hb, _, _, _⟩
  · exact h1
  · rw [hb] at h; omega

theorem get_event_bit_nonneg (s : PMU) (event : Nat)
    (h : 0 ≤ pmcnten_get_event_bit s event) :
    ∃ b : Nat, pmcnten_get_event_bit s event = (b : Int) ∧ b < pmu_nevents s ∧
      pmcnten_get s &&& ((1 <<< b) % M32) ≠ 0 ∧ pmevtyper_get s b = event := by
  rcases get_event_bit_cases s event with h1 | h2
  · rw [h1] at h; exact absurd h (by decide)
  · exact h2

theorem testBit_of_lt {x k : Nat} (h : x < 2 ^ k) {j : Nat} (hj : k ≤ j) :
    x.testBit j = false :=
  Nat.testBit_lt_two_pow (lt_of_lt_of_le h (Nat.pow_le_pow_right (by norm_num) hj))

@[simp] theorem pmcrFlags_of_pmcr_write (s : PMU) (x : Nat) :
    (pmcr_write s x).pmcrFlags = (x % M32) &&& (PMCR_WRITABLE &&& 121) := rfl

@[simp] theorem nevents_of_pmcr_write (s : PMU) (x : Nat) :
    (pmcr_write s x).nevents = s.nevents := rfl

@[simp] theorem pmcnten_of_pmcr_write (s : PMU) (x : Nat) :
    (pmcr_write s x).pmcnten = s.pmcnten := rfl

@[simp] theorem pmuserenr_of_pmcr_write (s : PMU) (x : Nat) :
    (pmcr_write s x).pmuserenr = s.pmuserenr := rfl

@[simp] theorem pmevtype_of_pmcr_write (s : PMU) (x : Nat) :
    (pmcr_write s x).pmevtype = s.pmevtype := rfl

@[simp] theorem pmevcnt_of_pmcr_write (s : PMU) (x : Nat) :
    (pmcr_write s x).pmevcnt =
      if (x % M32) &&& PMCR_EVENT_COUNTER_RESET ≠ 0 then fun _ => 0 else s.pmevcnt := rfl

@[simp] theorem pmccnt_of_pmcr_write (s : PMU) (x : Nat) :
    (pmcr_write s x).pmccnt =
      if (x % M32) &&& PMCR_CYCLE_COUNTER_RESET ≠ 0 then 0 else s.pmccnt := rfl

@[simp] theorem junk_of_pmcr_write (s : PMU) (x : Nat) :
    (pmcr_write s x).junk = s.junk := rfl

@[simp] theorem pmceid0_of_pmcr_write (s : PMU) (x : Nat) :
    (pmcr_write s x).pmceid0 = s.pmceid0 := rfl

@[simp] theorem pmceid1_of_pmcr_write (s : PMU) (x : Nat) :
    (pmcr_write s x).pmceid1 = s.pmceid1 := rfl

@[simp] theorem pmcrFlags_of_set_write (s : PMU) (x : Nat) :
    (pmcntenset_write s x).pmcrFlags = s.pmcrFlags := rfl

@[simp] theorem nevents_of_set_write (s : PMU) (x : Nat) :
    (pmcntenset_write s x).nevents = s.nevents := rfl

@[simp] theorem pmcnten_of_set_write (s : PMU) (x : Nat) :
    (pmcntenset_write s x).pmcnten = (s.pmcnten % M32) ||| (x % M32) := rfl

@[simp] theorem pmuserenr_of_set_write (s : PMU) (x : Nat) :
    (pmcntenset_write s x).pmuserenr = s.pmuserenr := rfl

@[simp] theorem pmevtype_of_set_write (s : PMU) (x : Nat) :
    (pmcntenset_write s x).pmevtype = s.pmevtype := rfl

@[simp] theorem pmevcnt_of_set_write (s : PMU) (x : Nat) :
    (pmcntenset_write s x).pmevcnt = s.pmevcnt := rfl

@[simp] theorem pmccnt_of_set_write (s : PMU) (x : Nat) :
    (pmcntenset_write s x).pmccnt = s.pmccnt := rfl

@[simp] theorem junk_of_set_write (s : PMU) (x : Nat) :
    (pmcntenset_write s x).junk = s.junk := rfl

@[simp] theorem pmcrFlags_of_clr_write (s : PMU) (x : Nat) :
    (pmcntenclr_write s x).pmcrFlags = s.pmcrFlags := rfl

@[simp] theorem nevents_of_clr_write (s : PMU) (x : Nat) :
    (pmcntenclr_write s x).nevents = s.nevents := rfl

@[simp] theorem pmcnten_of_clr_write (s : PMU) (x : Nat) :
    (pmcntenclr_write s x).pmcnten = (s.pmcnten % M32) &&& compl32 x := rfl

@[simp] theorem pmuserenr_of_clr_write (s : PMU) (x : Nat) :
    (pmcntenclr_write s x).pmuserenr = s.pmuserenr := rfl

@[simp] theorem pmevtype_of_clr_write (s : PMU) (x : Nat) :
    (pmcntenclr_write s x).pmevtype = s.pmevtype := rfl

@[simp] theorem pmevcnt_of_clr_write (s : PMU) (x : Nat) :
    (pmcntenclr_write s x).pmevcnt = s.pmevcnt := rfl

@[simp] theorem pmccnt_of_clr_write (s : PMU) (x : Nat) :
    (pmcntenclr_write s x).pmccnt = s.pmccnt := rfl

@[simp] theorem junk_of_clr_write (s : PMU) (x : Nat) :
    (pmcntenclr_write s x).junk = s.junk := rfl

@[simp] theorem pmcrFlags_of_user_write (s : PMU) (x : Nat) :
    (pmuserenr_write s x).pmcrFlags = s.pmcrFlags := rfl

@[simp] theorem nevents_of_user_write (s : PMU) (x : Nat) :
    (pmuserenr_write s x).nevents = s.nevents := rfl

@[simp] theorem pmcnten_of_user_write (s : PMU) (x : Nat) :
    (pmuserenr_write s x).pmcnten = s.pmcnten := rfl

@[simp] theorem pmuserenr_of_user_write (s : PMU) (x : Nat) :
    (pmuserenr_write s x).pmuserenr = x % M32 := rfl

@[simp] theorem pmevtype_of_user_write (s : PMU) (x : Nat) :
    (pmuserenr_write s x).pmevtype = s.pmevtype := rfl

@[simp] theorem pmevcnt_of_user_write (s : PMU) (x : Nat) :
    (pmuserenr_write s x).pmevcnt = s.pmevcnt := rfl

@[simp] theorem pmccnt_of_user_write (s : PMU) (x : Nat) :
    (pmuserenr_write s x).pmccnt = s.pmccnt := rfl

@[simp] theorem junk_of_user_write (s : PMU) (x : Nat) :
    (pmuserenr_write s x).junk = s.junk := rfl

@[simp] theorem pmcrFlags_of_evtype_write (s : PMU) (n v : Nat) :
    (pmevtyper_write s n v).pmcrFlags = s.pmcrFlags := by
  unfold pmevtyper_write; split <;> rfl

@[simp] theorem nevents_of_evtype_write (s : PMU) (n v : Nat) :
    (pmevtyper_write s n v).nevents = s.nevents := by
  unfold pmevtyper_write; split <;> rfl

@[simp] theorem pmcnten_of_evtype_write (s : PMU) (n v : Nat) :
    (pmevtyper_write s n v).pmcnten = s.pmcnten := by
  unfold pmevtyper_write; split <;> rfl

@[simp] theorem pmuserenr_of_evtype_write (s : PMU) (n v : Nat) :
    (pmevtyper_write s n v).pmuserenr = s.pmuserenr := by
  unfold pmevtyper_write; split <;> rfl

@[simp] theorem pmevcnt_of_evtype_write (s : PMU) (n v : Nat) :
    (pmevtyper_write s n v).pmevcnt = s.pmevcnt := by
  unfold pmevtyper_write; split <;> rfl

@[simp] theorem pmccnt_of_evtype_write (s : PMU) (n v : Nat) :
    (pmevtyper_write s n v).pmccnt = s.pmccnt := by
  unfold pmevtyper_write; split <;> rfl

@[simp] theorem junk_of_evtype_write (s : PMU) (n v : Nat) :
    (pmevtyper_write s n v).junk = s.junk := by
  unfold pmevtyper_write; split <;> rfl

theorem pmevtype_of_evtype_write (s : PMU) (n v j : Nat) :
    (pmevtyper_write s n v).pmevtype j =
      if n < NEVENTS_ARCH_MAX ∧ j = n then v % M32 else s.pmevtype j := by
  unfold pmevtyper_write
  by_cases h : n < NEVENTS_ARCH_MAX
  · simp only [h, if_true]
    by_cases hj : j = n <;> simp [hj, h]
  · simp [h]

@[simp] theorem pmcrFlags_of_evcnt_write (s : PMU) (n v : Nat) :
    (pmevcntr_write s n v).pmcrFlags = s.pmcrFlags := by
  unfold pmevcntr_write; split <;> rfl

@[simp] theorem nevents_of_evcnt_write (s : PMU) (n v : Nat) :
    (pmevcntr_write s n v).nevents = s.nevents := by
  unfold pmevcntr_write; split <;> rfl

@[simp] theorem pmcnten_of_evcnt_write (s : PMU) (n v : Nat) :
    (pmevcntr_write s n v).pmcnten = s.pmcnten := by
  unfold pmevcntr_write; split <;> rfl

@[simp] theorem pmuserenr_of_evcnt_write (s : PMU) (n v : Nat) :
    (pmevcntr_write s n v).pmuserenr = s.pmuserenr := by
  unfold pmevcntr_write; split <;> rfl

@[simp] theorem pmevtype_of_evcnt_write (s : PMU) (n v : Nat) :
    (pmevcntr_write s n v).pmevtype = s.pmevtype := by
  unfold pmevcntr_write; split <;> rfl

@[simp] theorem pmccnt_of_evcnt_write (s : PMU) (n v : Nat) :
    (pmevcntr_write s n v).pmccnt = s.pmccnt := by
  unfold pmevcntr_write; split <;> rfl

@[simp] theorem junk_of_evcnt_write (s : PMU) (n v : Nat) :
    (pmevcntr_write s n v).junk = s.junk := by
  unfold pmevcntr_write; split <;> rfl

theorem pmevcnt_of_evcnt_write (s : PMU) (n v j : Nat) :
    (pmevcntr_write s n v).pmevcnt j =
      if n < NEVENTS_ARCH_MAX ∧ j = n then v % M32 else s.pmevcnt j := by
  unfold pmevcntr_write
  by_cases h : n < NEVENTS_ARCH_MAX
  · simp only [h, if_true]
    by_cases hj : j = n <;> simp [hj, h]
  · simp [h]

theorem pmcr_read_eq (s : PMU) :
    pmcr_read s = (s.pmcrFlags &&& 121) ||| ((s.nevents % 32) <<< 11) := by
  unfold pmcr_read PMCR_NEVENTS_SHIFT
  rw [(by decide : PMCR_WRITABLE &&& 121 = 121)]

theorem hi_and_lo_eq_zero {x : Nat} (h : x < 2 ^ 7) : (31 <<< 11) &&& x = 0 := by
  apply Nat.eq_of_testBit_eq
  intro j
  simp only [Nat.testBit_and, Nat.testBit_shiftLeft, Nat.zero_testBit, ge_iff_le]
  by_cases hj : 11 ≤ j
  · rw [testBit_of_lt h (by omega)]
    simp
  · simp [hj]

theorem hi_and_hi {m : Nat} (hm : m < 32) : (31 <<< 11) &&& (m <<< 11) = m <<< 11 := by
  apply Nat.eq_of_testBit_eq
  intro j
  simp only [Nat.testBit_and, Nat.testBit_shiftLeft, ge_iff_le]
  by_cases hj : 11 ≤ j
  · simp only [hj, decide_True, Bool.true_and]
    by_cases hk : j - 11 < 5
    · have h31 : (31 : Nat).testBit (j - 11) = true := by
        have h5 := Nat.testBit_two_pow_sub_one 5 (j - 11)
        norm_num at h5
        rw [h5]
        simp [hk]
      rw [h31, Bool.true_and]
    · have hmf : m.testBit (j - 11) = false :=
        testBit_of_lt (by omega : m < 2 ^ 5) (by omega)
      rw [hmf, Bool.and_false]
  · simp [hj]

theorem shiftLeft_shiftRight_11 (m : Nat) : (m <<< 11) >>> 11 = m := by
  rw [Nat.shiftLeft_eq, Nat.shiftRight_eq_div_pow]
  exact Nat.mul_div_cancel m (by norm_num)

theorem pmu_nevents_eq (s : PMU) : pmu_nevents s = s.nevents % 32 := by
  unfold pmu_nevents PMCR_NEVENTS PMCR_NEVENTS_SHIFT
  rw [pmcr_read_eq, Nat.and_comm, Nat.and_or_distrib_left,
    hi_and_lo_eq_zero (lt_of_le_of_lt Nat.and_le_right (by norm_num)),
    hi_and_hi (Nat.mod_lt _ (by norm_num))]
  simp [shiftLeft_shiftRight_11]

theorem pmcr_read_lt (s : PMU) : pmcr_read s < M32 := by
  rw [pmcr_read_eq]
  unfold M32
  apply Nat.or_lt_two_pow
  · exact lt_of_le_of_lt Nat.and_le_right (by norm_num)
  · calc (s.nevents % 32) <<< 11 = (s.nevents % 32) * 2 ^ 11 := Nat.shiftLeft_eq _ _
      _ < 32 * 2 ^ 11 := by
          have h := Nat.mod_lt s.nevents (by norm_num : 0 < 32)
          have h2 : (2 : Nat) ^ 11 = 2048 := by norm_num
          rw [h2]
          omega
      _ < 2 ^ 32 := by norm_num

theorem pmcr_read_testBit_one (s : PMU) : (pmcr_read s).testBit 1 = false := by
  rw [pmcr_read_eq]
  simp [(by decide : (121 : Nat).testBit 1 = false)]

theorem pmcr_read_testBit_two (s : PMU) : (pmcr_read s).testBit 2 = false := by
  rw [pmcr_read_eq]
  simp [(by decide : (121 : Nat).testBit 2 = false)]

theorem and_two_eq_zero {x : Nat} (h : x.testBit 1 = false) :
    x &&& PMCR_EVENT_COUNTER_RESET = 0 := by
  unfold PMCR_EVENT_COUNTER_RESET
  rw [(by norm_num : (2 : Nat) = 2 ^ 1), Nat.and_two_pow, h]
  rfl

theorem and_four_eq_zero {x : Nat} (h : x.testBit 2 = false) :
    x &&& PMCR_CYCLE_COUNTER_RESET = 0 := by
  unfold PMCR_CYCLE_COUNTER_RESET
  rw [(by norm_num : (4 : Nat) = 2 ^ 2), Nat.and_two_pow, h]
  rfl

theorem and_121_shiftLeft11 (m : Nat) : (121 : Nat) &&& (m <<< 11) = 0 := by
  apply Nat.eq_of_testBit_eq
  intro j
  simp only [Nat.testBit_and, Nat.testBit_shiftLeft, Nat.zero_testBit, ge_iff_le]
  by_cases hj : 11 ≤ j
  · rw [testBit_of_lt (by norm_num : (121 : Nat) < 2 ^ 7) (by omega)]
    simp
  · simp [hj]

theorem pmcr_flags_roundtrip (s : PMU) : pmcr_read s &&& 121 = s.pmcrFlags &&& 121 := by
  rw [pmcr_read_eq, Nat.and_comm, Nat.and_or_distrib_left, and_121_shiftLeft11]
  have h1 : (121 : Nat) &&& (s.pmcrFlags &&& 121) = s.pmcrFlags &&& 121 := by
    rw [Nat.and_comm, Nat.and_assoc, Nat.and_self]
  rw [h1]
  simp

theorem mod_M32_lt (x : Nat) : x % M32 < M32 := Nat.mod_lt _ (by unfold M32; norm_num)

theorem compl32_lt (x : Nat) : compl32 x < M32 := by
  unfold compl32 M32
  exact Nat.xor_lt_two_pow (Nat.mod_lt _ (by norm_num)) (by norm_num)

theorem two_pow_lt_M32 {n : Nat} (h : n < 32) : 2 ^ n < M32 := by
  unfold M32
  exact Nat.pow_lt_pow_right (by norm_num) h

theorem compl32_compl32 (x : Nat) : compl32 (compl32 x) = x % M32 := by
  have h1 : compl32 x % M32 = compl32 x := Nat.mod_eq_of_lt (compl32_lt x)
  show (compl32 x % M32) ^^^ (M32 - 1) = x % M32
  rw [h1]
  show ((x % M32) ^^^ (M32 - 1)) ^^^ (M32 - 1) = x % M32
  rw [Nat.xor_assoc, Nat.xor_self, Nat.xor_zero]

theorem or_and_absorb (a b : Nat) : (a ||| b) &&& b = b := by
  apply Nat.eq_of_testBit_eq
  intro j
  simp only [Nat.testBit_and, Nat.testBit_or]
  cases b.testBit j <;> simp

theorem and_shift_ne_iff {x j : Nat} (hj : j < 32) :
    x &&& ((1 <<< j) % M32) ≠ 0 ↔ x.testBit j = true := by
  have h2 : (1 <<< j) % M32 = 2 ^ j := by
    rw [Nat.shiftLeft_eq, one_mul]
    exact Nat.mod_eq_of_lt (two_pow_lt_M32 hj)
  rw [h2, Nat.and_two_pow]
  cases hb : x.testBit j <;> simp

theorem testBit_pmcnten_get (s : PMU) (j : Nat) :
    (pmcnten_get s).testBit j =
      ((pmcntenset_read s).testBit j && decide (j < pmu_nevents s)) := by
  unfold pmcnten_get
  rw [Nat.shiftLeft_eq, one_mul]
  simp [Nat.testBit_and]
  cases (pmcntenset_read s).testBit j <;> simp

theorem testBit_pmcntenset_read (s : PMU) (j : Nat) (hj : 32 ≤ j) :
    (pmcntenset_read s).testBit j = false := by
  unfold pmcntenset_read
  exact testBit_of_lt (by unfold M32; exact Nat.mod_lt _ (by norm_num)) hj

theorem testBit_pmcnten_disable (s : PMU) (n : Nat) (hn : n < 32) (j : Nat) :
    (pmcntenset_read (pmcnten_disable s n)).testBit j =
      ((pmcntenset_read s).testBit j && !decide (j = n)) := by
  unfold pmcnten_disable pmcnten_unset
  have h2 : (1 <<< n) % M32 = 2 ^ n := by
    rw [Nat.shiftLeft_eq, one_mul]
    exact Nat.mod_eq_of_lt (two_pow_lt_M32 hn)
  have hlt : (s.pmcnten % M32) &&& compl32 ((1 <<< n) % M32) < M32 :=
    Nat.and_lt_two_pow _ (compl32_lt _)
  show ((pmcntenclr_write s ((1 <<< n) % M32)).pmcnten % M32).testBit j = _
  rw [pmcnten_of_clr_write, Nat.mod_eq_of_lt hlt, h2]
  unfold compl32 pmcntenset_read
  rw [Nat.mod_eq_of_lt (two_pow_lt_M32 hn)]
  by_cases hj : j < 32
  · simp only [Nat.testBit_and, Nat.testBit_xor, Nat.testBit_two_pow]
    have hm : (M32 - 1).testBit j = true := by
      unfold M32
      rw [Nat.testBit_two_pow_sub_one]
      simp [hj]
    rw [hm]
    simp [Bool.xor_true, eq_comm]
  · have h1 : (s.pmcnten % M32).testBit j = false :=
      testBit_of_lt (by unfold M32; exact Nat.mod_lt _ (by norm_num)) (by omega)
    simp [Nat.testBit_and, h1]

theorem unload_go_pmevtype (snap : PMUSnapshot) (n : Nat) :
    ∀ fuel i0 s, n - i0 ≤ fuel → ∀ j,
      (pmu_unload_go snap n fuel i0 s).pmevtype j =
        if i0 ≤ j ∧ j < n ∧ j < NEVENTS_ARCH_MAX then snap.state_pmevtype j % M32
        else s.pmevtype j := by
  intro fuel
  induction fuel with
  | zero =>
    intro i0 s hf j
    rw [pmu_unload_go]
    rw [if_neg (by omega)]
  | succ fuel ih =>
    intro i0 s hf j
    rw [pmu_unload_go]
    by_cases h : i0 < n
    · rw [if_pos h, ih (i0 + 1) _ (by omega) j, pmevtype_of_evtype_write]
      simp only [NEVENTS_ARCH_MAX]
      by_cases hc : i0 + 1 ≤ j ∧ j < n ∧ j < 8
      · rw [if_pos hc, if_pos (by omega)]
      · rw [if_neg hc]
        by_cases hji : j = i0
        · subst hji
          by_cases hj8 : j < 8
          · rw [if_pos ⟨hj8, rfl⟩, if_pos (by omega)]
          · rw [if_neg (by omega), if_neg (by omega)]
        · rw [if_neg (by omega), if_neg (by omega)]
    · rw [if_neg h, if_neg (by omega)]

theorem unload_go_pmcnten (snap : PMUSnapshot) (n : Nat) :
    ∀ fuel i0 s, (pmu_unload_go snap n fuel i0 s).pmcnten = s.pmcnten := by
  intro fuel
  induction fuel with
  | zero => intro i0 s; rfl
  | succ fuel ih =>
    intro i0 s
    rw [pmu_unload_go]
    by_cases h : i0 < n
    · rw [if_pos h, ih]
      simp
    · rw [if_neg h]

theorem unload_go_pmcrFlags (snap : PMUSnapshot) (n : Nat) :
    ∀ fuel i0 s, (pmu_unload_go snap n fuel i0 s).pmcrFlags = s.pmcrFlags := by
  intro fuel
  induction fuel with
  | zero => intro i0 s; rfl
  | succ fuel ih =>
    intro i0 s
    rw [pmu_unload_go]
    by_cases h : i0 < n
    · rw [if_pos h, ih]
      simp
    · rw [if_neg h]

theorem unload_go_nevents (snap : PMUSnapshot) (n : Nat) :
    ∀ fuel i0 s, (pmu_unload_go snap n fuel i0 s).nevents = s.nevents := by
  intro fuel
  induction fuel with
  | zero => intro i0 s; rfl
  | succ fuel ih =>
    intro i0 s
    rw [pmu_unload_go]
    by_cases h : i0 < n
    · rw [if_pos h, ih]
      simp
    · rw [if_neg h]

theorem unload_go_pmuserenr (snap : PMUSnapshot) (n : Nat) :
    ∀ fuel i0 s, (pmu_unload_go snap n fuel i0 s).pmuserenr = s.pmuserenr := by
  intro fuel
  induction fuel with
  | zero => intro i0 s; rfl
  | succ fuel ih =>
    intro i0 s
    rw [pmu_unload_go]
    by_cases h : i0 < n
    · rw [if_pos h, ih]
      simp
    · rw [if_neg h]

theorem unload_go_junk (snap : PMUSnapshot) (n : Nat) :
    ∀ fuel i0 s, (pmu_unload_go snap n fuel i0 s).junk = s.junk := by
  intro fuel
  induction fuel with
  | zero => intro i0 s; rfl
  | succ fuel ih =>
    intro i0 s
    rw [pmu_unload_go]
    by_cases h : i0 < n
    · rw [if_pos h, ih]
      simp
    · rw [if_neg h]

theorem pmcr_or_c_and2 (s : PMU) {c : Nat} (hc : c.testBit 1 = false) :
    ((pmcr_read s ||| c) % M32) &&& PMCR_EVENT_COUNTER_RESET = 0 := by
  apply and_two_eq_zero
  unfold M32
  rw [Nat.testBit_mod_two_pow]
  simp [Nat.testBit_or, pmcr_read_testBit_one, hc]

theorem pmcr_or_c_and4 (s : PMU) {c : Nat} (hc : c.testBit 2 = false) :
    ((pmcr_read s ||| c) % M32) &&& PMCR_CYCLE_COUNTER_RESET = 0 := by
  apply and_four_eq_zero
  unfold M32
  rw [Nat.testBit_mod_two_pow]
  simp [Nat.testBit_or, pmcr_read_testBit_two, hc]

theorem pmcr_and_y_and2 (s : PMU) (y : Nat) :
    ((pmcr_read s &&& y) % M32) &&& PMCR_EVENT_COUNTER_RESET = 0 := by
  apply and_two_eq_zero
  unfold M32
  rw [Nat.testBit_mod_two_pow]
  simp [Nat.testBit_and, pmcr_read_testBit_one]

theorem pmcr_and_y_and4 (s : PMU) (y : Nat) :
    ((pmcr_read s &&& y) % M32) &&& PMCR_CYCLE_COUNTER_RESET = 0 := by
  apply and_four_eq_zero
  unfold M32
  rw [Nat.testBit_mod_two_pow]
  simp [Nat.testBit_and, pmcr_read_testBit_two]

theorem pmu_enable_nevents (s : PMU) : (pmu_enable s).nevents = s.nevents := rfl

theorem pmu_enable_pmcnten (s : PMU) : (pmu_enable s).pmcnten = s.pmcnten := rfl

theorem pmu_enable_pmevtype (s : PMU) : (pmu_enable s).pmevtype = s.pmevtype := rfl

theorem pmu_enable_pmuserenr (s : PMU) : (pmu_enable s).pmuserenr = s.pmuserenr := rfl

theorem pmu_enable_junk (s : PMU) : (pmu_enable s).junk = s.junk := rfl

theorem pmu_enable_pmevcnt (s : PMU) : (pmu_enable s).pmevcnt = s.pmevcnt := by
  unfold pmu_enable pmcr_set
  have h := pmcr_or_c_and2 s (c := PMCR_ENABLE_COUNTERS) (by decide)
  rw [pmevcnt_of_pmcr_write, if_neg (by simp [h])]

theorem pmu_enable_pmccnt (s : PMU) : (pmu_enable s).pmccnt = s.pmccnt := by
  unfold pmu_enable pmcr_set
  have h := pmcr_or_c_and4 s (c := PMCR_ENABLE_COUNTERS) (by decide)
  rw [pmccnt_of_pmcr_write, if_neg (by simp [h])]

theorem unload_pmcnten (snap : PMUSnapshot) (s : PMU) :
    (pmu_unload snap s).pmcnten =
      ((((pmu_unload_go snap (pmu_nevents s) (pmu_nevents s) 0 s).pmcnten % M32) |||
        (snap.state_pmcnten % M32)) % M32) &&& compl32 (compl32 snap.state_pmcnten) := by
  unfold pmu_unload
  simp only [pmcnten_of_pmcr_write, pmcnten_of_user_write, pmcnten_of_clr_write,
    pmcnten_of_set_write]

theorem unload_pmevtype (snap : PMUSnapshot) (s : PMU) :
    (pmu_unload snap s).pmevtype =
      (pmu_unload_go snap (pmu_nevents s) (pmu_nevents s) 0 s).pmevtype := by
  unfold pmu_unload
  simp only [pmevtype_of_pmcr_write, pmevtype_of_user_write, pmevtype_of_clr_write,
    pmevtype_of_set_write]

theorem unload_nevents (snap : PMUSnapshot) (s : PMU) :
    (pmu_unload snap s).nevents = s.nevents := by
  unfold pmu_unload
  simp only [nevents_of_pmcr_write, nevents_of_user_write, nevents_of_clr_write,
    nevents_of_set_write, unload_go_nevents]

theorem unload_junk (snap : PMUSnapshot) (s : PMU) :
    (pmu_unload snap s).junk = s.junk := by
  unfold pmu_unload
  simp only [junk_of_pmcr_write, junk_of_user_write, junk_of_clr_write,
    junk_of_set_write, unload_go_junk]

theorem unload_pmcrFlags (snap : PMUSnapshot) (s : PMU) :
    (pmu_unload snap s).pmcrFlags =
      (snap.state_pmcr % M32) &&& (PMCR_WRITABLE &&& 121) := by
  unfold pmu_unload
  simp only [pmcrFlags_of_pmcr_write]

theorem unload_pmuserenr (snap : PMUSnapshot) (s : PMU) :
    (pmu_unload snap s).pmuserenr = snap.state_pmuserenr % M32 := by
  unfold pmu_unload
  simp only [pmuserenr_of_pmcr_write, pmuserenr_of_user_write]

/-- Claim C4: capture (pmu_load) followed immediately by restore
(pmu_unload) leaves every per-slot event-type register (indices below N,
including free slots), the enabled-slot mask, and the control-register
flags bit-for-bit identical to their pre-capture values. -/
theorem c4_capture_restore_fixed_point (s : PMU) :
    (∀ i, i < pmu_nevents s →
      pmevtyper_read (pmu_unload (pmu_load s).2 (pmu_load s).1) i = pmevtyper_read s i) ∧
    pmcntenset_read (pmu_unload (pmu_load s).2 (pmu_load s).1) = pmcntenset_read s ∧
    pmcr_read (pmu_unload (pmu_load s).2 (pmu_load s).1) = pmcr_read s := by
  have h1 : (pmu_load s).1 = pmu_enable s := rfl
  have hX : (pmu_load s).2.state_pmcnten = s.pmcnten % M32 := rfl
  have hZ : (pmu_load s).2.state_pmcr = pmcr_read s := rfl
  have hn1 : pmu_nevents (pmu_enable s) = pmu_nevents s := by
    rw [pmu_nevents_eq, pmu_nevents_eq, pmu_enable_nevents]
  refine ⟨?_, ?_, ?_⟩
  · intro i hi
    unfold pmevtyper_read
    have hjunk : (pmu_unload (pmu_load s).2 (pmu_load s).1).junk = s.junk := by
      rw [unload_junk, h1, pmu_enable_junk]
    by_cases h8 : i < NEVENTS_ARCH_MAX
    · rw [if_pos h8, if_pos h8]
      rw [unload_pmevtype, h1]
      rw [unload_go_pmevtype _ _ _ _ _ (by omega) i]
      rw [if_pos ⟨Nat.zero_le i, by rw [hn1]; exact hi, h8⟩]
      have hsnap : (pmu_load s).2.state_pmevtype i =
          if i < pmu_nevents (pmu_enable s) then pmevtyper_read (pmu_enable s) i else 0 := rfl
      rw [hsnap, if_pos (by rw [hn1]; exact hi)]
      unfold pmevtyper_read
      rw [if_pos h8]
      have he : (pmu_enable s).pmevtype = s.pmevtype := pmu_enable_pmevtype s
      rw [he, Nat.mod_mod_of_dvd _ dvd_rfl, Nat.mod_mod_of_dvd _ dvd_rfl]
    · rw [if_neg h8, if_neg h8, hjunk]
  · unfold pmcntenset_read
    rw [unload_pmcnten, h1]
    rw [unload_go_pmcnten, pmu_enable_pmcnten, hX, compl32_compl32]
    have hmm : ∀ x : Nat, (x % M32) % M32 = x % M32 := fun x => Nat.mod_eq_of_lt (mod_M32_lt x)
    simp only [hmm, Nat.or_self, Nat.and_self]
  · have hfl : (pmu_unload (pmu_load s).2 (pmu_load s).1).pmcrFlags =
        s.pmcrFlags &&& 121 := by
      rw [unload_pmcrFlags, hZ, (by decide : PMCR_WRITABLE &&& 121 = 121),
        Nat.mod_eq_of_lt (pmcr_read_lt s), pmcr_flags_roundtrip]
    have hnv : (pmu_unload (pmu_load s).2 (pmu_load s).1).nevents = s.nevents := by
      rw [unload_nevents, h1, pmu_enable_nevents]
    rw [pmcr_read_eq, pmcr_read_eq, hfl, hnv, Nat.and_assoc, Nat.and_self]

/-- Claim C1: the claim says the free-slot search returns the lowest free
index (lowest free contiguous pair for wide requests) and NoOpenSlot
exactly when none exists.  In the code the C expression set ampersand
shifted-mask compared to zero parses with the comparison binding first,
so the tested value is always set ampersand zero; pmcnten_get_open
therefore returns NoOpenSlot for every state and every flags value, and
in addition the wide loop only visits even-aligned pairs.  This theorem
evaluates the code: the search never returns a slot. -/
theorem c1_get_open_always_no_open_slot (s : PMU) (flags : Nat) :
    pmcnten_get_open s flags = PMU_RETURN_NO_OPEN_SLOT :=
  get_open_no_slot s flags

/-- Claim C3: the claim says event IDs 32 to 63 test bit event minus 32
of PMCEID1.  The code subtracts 31, an off-by-one: with PMCEID1 equal to
1 (bit 0 set), event 32 is reported unavailable although the claim says
bit 0 decides it; and for event 63 the code shifts 1 left by 32, which
wraps to zero on the 32-bit target, making the is-set test vacuously
true, so event 63 is reported available although bit 31 of PMCEID1 is
clear. -/
theorem c3_availability_off_by_one :
    pmu_event_available stateC3 32 = false ∧
    Nat.testBit (pmceid1_read stateC3) 0 = true ∧
    pmu_event_available stateC3 63 = true ∧
    Nat.testBit (pmceid1_read stateC3) 31 = false := by
  decide

/-- Claim C5: the claim says that after a successful add, a second add of
the same event fails with AlreadyWatched until remove succeeds.  The
premise is unsatisfiable in the code: because the free-slot search always
returns NoOpenSlot (see the C1 analysis), pmu_event_add never returns
success and never modifies the state, for every state, event and flags. -/
theorem c5_add_never_succeeds (s : PMU) (event flags : Nat) :
    (pmu_event_add s event flags).1 < 0 ∧ (pmu_event_add s event flags).2 = s := by
  unfold pmu_event_add
  by_cases h1 : pmu_event_available s event = false
  · rw [if_pos h1]
    exact ⟨(by decide : PMU_RETURN_EVENT_NO_AVAIL < 0), rfl⟩
  · rw [if_neg h1]
    by_cases h2 : 0 ≤ pmcnten_get_event_bit s event
    · rw [if_pos h2]
      exact ⟨(by decide : PMU_RETURN_EVENT_ALREADY < 0), rfl⟩
    · rw [if_neg h2]
      simp only [get_open_no_slot]
      rw [if_pos (by decide : PMU_RETURN_NO_OPEN_SLOT < 0)]
      exact ⟨(by decide : PMU_RETURN_NO_OPEN_SLOT < 0), rfl⟩

/-- Claim C10: pmu_event_read_32 and pmu_event_get return the bound slot
index on success (not a fixed success code, and not always zero), and
both check the output pointer only after the lookup, so an unwatched
event with a null pointer yields EventNotWatched rather than
BadArgument. -/
theorem c10_read_returns_slot_index (s : PMU) (event flags : Nat) :
    (pmcnten_get_event_bit s event < 0 →
      (pmu_event_read_32 s event flags true).1 = PMU_RETURN_EVENT_NO_WATCH ∧
      (pmu_event_get s event flags true).1 = PMU_RETURN_EVENT_NO_WATCH) ∧
    (∀ b : Nat, pmcnten_get_event_bit s event = (b : Int) →
      (pmu_event_read_32 s event flags false).1 = (b : Int) ∧
      (pmu_event_get s event flags false).1 = (b : Int)) ∧
    (pmu_event_read_32 stateC10w 17 0 false).1 = 1 ∧
    (pmu_event_get stateC10w 17 0 false).1 = 1 := by
  refine ⟨?_, ?_, by decide, by decide⟩
  · intro h
    have he := get_event_bit_neg s event h
    unfold pmu_event_read_32 pmu_event_get
    rw [he]
    exact ⟨by rw [if_pos (by decide : PMU_RETURN_EVENT_NO_WATCH < 0)],
      by rw [if_pos (by decide : PMU_RETURN_EVENT_NO_WATCH < 0)]⟩
  · intro b hb
    unfold pmu_event_read_32 pmu_event_get
    rw [hb]
    have hnn : ¬ ((b : Int) < 0) := by omega
    constructor
    · rw [if_neg hnn]
      simp
    · rw [if_neg hnn]
      simp only [Bool.false_eq_true, if_false]
      split
      · rfl
      · rfl

/-- Claim C2, counterexample: the bound slot is 1 (odd), the next slot 2
exists, is within bounds (the state has four slots), and its event-type
register holds the chain marker, so the claim predicts the combined value
5 or-ed with 7 shifted left 32; the code tests evenness of the slot
index instead of the bounds and returns the plain 32-bit count 5. -/
theorem c2_read_claim_counterexample :
    pmcnten_get_event_bit stateC2cex 17 = 1 ∧
    1 + 1 < pmu_nevents stateC2cex ∧
    pmevtyper_get stateC2cex 2 = EVT_CHAIN ∧
    (pmu_event_get stateC2cex 17 0 false).2 = some 5 ∧
    (pmu_event_get stateC2cex 17 0 false).2 ≠
      some (pmevcntr_read stateC2cex 1 ||| (pmevcntr_read stateC2cex 2 <<< 32)) := by
  decide

/-- Claim C2, amended: on success pmu_event_get returns the combined
64-bit value exactly when the bound slot index is even and the next
event-type register (read with no bounds check) holds the chain marker;
otherwise the primary 32-bit count zero-extended. -/
theorem c2_read_value (s : PMU) (event flags : Nat) :
    (pmcnten_get_event_bit s event < 0 →
      pmu_event_get s event flags false = (PMU_RETURN_EVENT_NO_WATCH, none)) ∧
    (∀ b : Nat, pmcnten_get_event_bit s event = (b : Int) →
      (pmu_event_get s event flags false).2 =
        some (if b % 2 = 0 ∧ pmevtyper_get s (b + 1) = EVT_CHAIN
          then pmevcntr_read s b ||| (pmevcntr_read s (b + 1) <<< 32)
          else pmevcntr_read s b)) := by
  constructor
  · intro h
    have he := get_event_bit_neg s event h
    unfold pmu_event_get
    rw [he, if_pos (by decide : PMU_RETURN_EVENT_NO_WATCH < 0)]
  · intro b hb
    unfold pmu_event_get
    rw [hb]
    rw [if_neg (by omega : ¬ ((b : Int) < 0))]
    simp only [Bool.false_eq_true, if_false, Int.toNat_natCast]
    by_cases hc : b % 2 = 0 ∧ pmevtyper_get s (b + 1) = EVT_CHAIN
    · rw [if_pos hc, if_pos hc]
      unfold pmevcntr_read_64
      rfl
    · rw [if_neg hc, if_neg hc]
      unfold ULL
      rw [Nat.zero_shiftLeft, Nat.or_zero]

/-- Witness for the amended C2 claim, which is also the chaining
combination example of the spec: slot 0 bound with an even index and a
chain continuation, primary count 4294967295 and continuation count 1,
so read returns 8589934591, that is 2 to the 32 minus 1 plus 2 to the
32. -/
theorem c2_read_value_witness :
    pmcnten_get_event_bit stateC2w 17 = (0 : Int) ∧
    (pmu_event_get stateC2w 17 1 false).2 = some 8589934591 := by
  have h := (c2_read_value stateC2w 17 1).2 0 (by decide)
  refine ⟨by decide, ?_⟩
  rw [h]
  decide

theorem add_state_eq (s : PMU) (event flags : Nat) :
    (pmu_event_add s event flags).2 = s := by
  unfold pmu_event_add
  by_cases h1 : pmu_event_available s event = false
  · rw [if_pos h1]
  · rw [if_neg h1]
    by_cases h2 : 0 ≤ pmcnten_get_event_bit s event
    · rw [if_pos h2]
    · rw [if_neg h2]
      simp only [get_open_no_slot]
      rw [if_pos (by decide : PMU_RETURN_NO_OPEN_SLOT < 0)]

/-- Claim C8: whenever add, remove or reset returns an error (a negative
code), the PMU register state is unchanged; pmu_event_read_32 and
pmu_event_get are embedded as pure functions because the C performs no
register write in them. -/
theorem c8_errors_leave_state_unchanged (s : PMU) (event flags : Nat) :
    ((pmu_event_add s event flags).1 < 0 → (pmu_event_add s event flags).2 = s) ∧
    ((pmu_event_remove s event flags).1 < 0 → (pmu_event_remove s event flags).2 = s) ∧
    ((pmu_event_reset s event flags).1 < 0 → (pmu_event_reset s event flags).2 = s) := by
  refine ⟨fun _ => add_state_eq s event flags, ?_, ?_⟩
  · intro h
    simp only [pmu_event_remove] at h ⊢
    by_cases hb : pmcnten_get_event_bit s event < 0
    · rw [if_pos hb]
    · exfalso
      rw [if_neg hb] at h
      split at h
      all_goals try split at h
      all_goals simp [PMU_RETURN_SUCCESS] at h
  · intro h
    simp only [pmu_event_reset] at h ⊢
    by_cases hb : pmcnten_get_event_bit s event < 0
    · rw [if_pos hb]
    · exfalso
      rw [if_neg hb] at h
      simp [PMU_RETURN_SUCCESS] at h

/-- Witness for C8 at a concrete state: add fails with NoOpenSlot,
remove and reset fail with EventNotWatched, and the state is returned
unchanged in all three cases. -/
theorem c8_errors_leave_state_unchanged_witness :
    (pmu_event_add stateC8w 1 0).2 = stateC8w ∧
    (pmu_event_remove stateC8w 1 0).2 = stateC8w ∧
    (pmu_event_reset stateC8w 1 0).2 = stateC8w := by
  have h := c8_errors_leave_state_unchanged stateC8w 1 0
  exact ⟨h.1 (by decide), h.2.1 (by decide), h.2.2 (by decide)⟩

/-- Witness for C4 at a concrete state with nontrivial contents in every
register. -/
theorem c4_capture_restore_fixed_point_witness :
    0 < pmu_nevents stateC4w ∧
    pmevtyper_read (pmu_unload (pmu_load stateC4w).2 (pmu_load stateC4w).1) 0 =
      pmevtyper_read stateC4w 0 ∧
    pmcntenset_read (pmu_unload (pmu_load stateC4w).2 (pmu_load stateC4w).1) =
      pmcntenset_read stateC4w := by
  have h := c4_capture_restore_fixed_point stateC4w
  exact ⟨by decide, h.1 0 (by decide), h.2.1⟩

/-- Witness for C10: an unwatched event with a null pointer yields
EventNotWatched, and a watched event bound to slot 1 returns index 1. -/
theorem c10_read_returns_slot_index_witness :
    (pmu_event_read_32 stateC10w 99 0 true).1 = PMU_RETURN_EVENT_NO_WATCH ∧
    (pmu_event_read_32 stateC10w 17 0 false).1 = (1 : Int) := by
  have h1 := (c10_read_returns_slot_index stateC10w 99 0).1 (by decide)
  have h2 := ((c10_read_returns_slot_index stateC10w 17 0).2.1) 1 (by decide)
  exact ⟨h1.1, h2.1⟩

theorem and_one_eq_zero {x : Nat} (h : x.testBit 0 = false) :
    x &&& PMCR_ENABLE_COUNTERS = 0 := by
  unfold PMCR_ENABLE_COUNTERS
  rw [(by norm_num : (1 : Nat) = 2 ^ 0), Nat.and_two_pow, h]
  rfl

theorem and2_ne_of_testBit {x : Nat} (h : x.testBit 1 = true) :
    x &&& PMCR_EVENT_COUNTER_RESET ≠ 0 := by
  have h2 : x &&& PMCR_EVENT_COUNTER_RESET = (x.testBit 1).toNat * 2 ^ 1 := by
    rw [(by decide : PMCR_EVENT_COUNTER_RESET = 2 ^ 1)]
    exact Nat.and_two_pow x 1
  rw [h2, h]
  decide

theorem and4_ne_of_testBit {x : Nat} (h : x.testBit 2 = true) :
    x &&& PMCR_CYCLE_COUNTER_RESET ≠ 0 := by
  have h2 : x &&& PMCR_CYCLE_COUNTER_RESET = (x.testBit 2).toNat * 2 ^ 2 := by
    rw [(by decide : PMCR_CYCLE_COUNTER_RESET = 2 ^ 2)]
    exact Nat.and_two_pow x 2
  rw [h2, h]
  decide

theorem pmcr_or2_and2_ne (s : PMU) :
    ((pmcr_read s ||| PMCR_EVENT_COUNTER_RESET) % M32) &&& PMCR_EVENT_COUNTER_RESET ≠ 0 := by
  apply and2_ne_of_testBit
  unfold M32
  rw [Nat.testBit_mod_two_pow]
  simp [Nat.testBit_or, (by decide : PMCR_EVENT_COUNTER_RESET.testBit 1 = true)]

theorem pmcr_or4_and4_ne (s : PMU) :
    ((pmcr_read s ||| PMCR_CYCLE_COUNTER_RESET) % M32) &&& PMCR_CYCLE_COUNTER_RESET ≠ 0 := by
  apply and4_ne_of_testBit
  unfold M32
  rw [Nat.testBit_mod_two_pow]
  simp [Nat.testBit_or, (by decide : PMCR_CYCLE_COUNTER_RESET.testBit 2 = true)]

/-- Claim C9: after pmu_disable_all, for every starting state, every
slot enable bit is clear (the whole mask is zero, cycle-counter bit
included), every event count register and the cycle counter read zero,
and the global enable flag of the control register is clear. -/
theorem c9_disable_all_clears (s : PMU) :
    pmcntenset_read (pmu_disable_all s) = 0 ∧
    (∀ n, n < NEVENTS_ARCH_MAX → pmevcntr_read (pmu_disable_all s) n = 0) ∧
    pmccntr_read_32 (pmu_disable_all s) = 0 ∧
    pmcr_read (pmu_disable_all s) &&& PMCR_ENABLE_COUNTERS = 0 := by
  unfold pmu_disable_all
  have hcnt0 : (pmcntenclr_write s (compl32 0)).pmcnten = 0 := by
    rw [pmcnten_of_clr_write, compl32_compl32]
    simp
  have hev1 : (pmevcntr_reset_all (pmcntenclr_write s (compl32 0))).pmevcnt = fun _ => 0 := by
    unfold pmevcntr_reset_all pmcr_set
    rw [pmevcnt_of_pmcr_write, if_pos (pmcr_or2_and2_ne _)]
  have hcnt1 : (pmevcntr_reset_all (pmcntenclr_write s (compl32 0))).pmcnten = 0 := by
    unfold pmevcntr_reset_all pmcr_set
    rw [pmcnten_of_pmcr_write, hcnt0]
  have hcc2 : (pmccntr_reset (pmevcntr_reset_all (pmcntenclr_write s (compl32 0)))).pmccnt = 0 := by
    unfold pmccntr_reset pmcr_set
    rw [pmccnt_of_pmcr_write, if_pos (pmcr_or4_and4_ne _)]
  have hev2 : (pmccntr_reset (pmevcntr_reset_all (pmcntenclr_write s (compl32 0)))).pmevcnt =
      fun _ => 0 := by
    unfold pmccntr_reset pmcr_set
    rw [pmevcnt_of_pmcr_write,
      if_neg (by
        simp [pmcr_or_c_and2 (pmevcntr_reset_all (pmcntenclr_write s (compl32 0)))
          (c := PMCR_CYCLE_COUNTER_RESET) (by decide)]), hev1]
  have hcnt2 : (pmccntr_reset (pmevcntr_reset_all (pmcntenclr_write s (compl32 0)))).pmcnten
      = 0 := by
    unfold pmccntr_reset pmcr_set
    rw [pmcnten_of_pmcr_write, hcnt1]
  refine ⟨?_, ?_, ?_, ?_⟩
  · unfold pmu_disable pmcr_unset pmcntenset_read
    rw [pmcnten_of_pmcr_write, hcnt2]
    decide
  · intro n hn
    unfold pmu_disable pmcr_unset pmevcntr_read
    rw [if_pos hn, pmevcnt_of_pmcr_write,
      if_neg (by
        simp [pmcr_and_y_and2 (pmccntr_reset (pmevcntr_reset_all (pmcntenclr_write s
          (compl32 0)))) (compl32 PMCR_ENABLE_COUNTERS)]), hev2]
    simp
  · unfold pmu_disable pmcr_unset pmccntr_read_32
    rw [pmccnt_of_pmcr_write,
      if_neg (by
        simp [pmcr_and_y_and4 (pmccntr_reset (pmevcntr_reset_all (pmcntenclr_write s
          (compl32 0)))) (compl32 PMCR_ENABLE_COUNTERS)]), hcc2]
    simp
  · apply and_one_eq_zero
    have hy : (pmcr_read (pmccntr_reset (pmevcntr_reset_all (pmcntenclr_write s (compl32 0)))) &&&
        compl32 PMCR_ENABLE_COUNTERS).testBit 0 = false := by
      rw [Nat.testBit_and, (by decide : (compl32 PMCR_ENABLE_COUNTERS).testBit 0 = false),
        Bool.and_false]
    have hymod : ((pmcr_read (pmccntr_reset (pmevcntr_reset_all (pmcntenclr_write s
        (compl32 0)))) &&& compl32 PMCR_ENABLE_COUNTERS) % M32).testBit 0 = false := by
      unfold M32
      rw [Nat.testBit_mod_two_pow, hy, Bool.and_false]
    have hflag : (pmu_disable (pmccntr_reset (pmevcntr_reset_all (pmcntenclr_write s
        (compl32 0))))).pmcrFlags.testBit 0 = false := by
      unfold pmu_disable pmcr_unset
      rw [pmcrFlags_of_pmcr_write, Nat.testBit_and, hymod, Bool.false_and]
    rw [pmcr_read_eq, Nat.testBit_or, Nat.testBit_and, hflag, Bool.false_and, Bool.false_or,
      Nat.testBit_shiftLeft]
    simp

/-- Witness for C9 at a concrete fully populated state. -/
theorem c9_disable_all_clears_witness :
    pmevcntr_read (pmu_disable_all stateC9w) 0 = 0 ∧
    pmcntenset_read (pmu_disable_all stateC9w) = 0 := by
  have h := c9_disable_all_clears stateC9w
  exact ⟨h.2.1 0 (by decide), h.1⟩

/-- Claim C7: restore writes back the captured per-slot event-type
registers, then the enabled-slot mask with both set and clear semantics
(for every pre-state the final mask equals the snapshot mask exactly, so
bits absent from the mask are explicitly disabled), then the user-access
flag, and the control-register flags come from the snapshot as the last
write. -/
theorem c7_restore_writes (snap : PMUSnapshot) (s : PMU) :
    (∀ i, i < pmu_nevents s → i < NEVENTS_ARCH_MAX →
      pmevtyper_read (pmu_unload snap s) i = snap.state_pmevtype i % M32) ∧
    pmcntenset_read (pmu_unload snap s) = snap.state_pmcnten % M32 ∧
    pmuserenr_read (pmu_unload snap s) = snap.state_pmuserenr % M32 ∧
    pmcr_read (pmu_unload snap s) &&& 121 = (snap.state_pmcr % M32) &&& 121 := by
  refine ⟨?_, ?_, ?_, ?_⟩
  · intro i hi h8
    unfold pmevtyper_read
    rw [if_pos h8, unload_pmevtype, unload_go_pmevtype _ _ _ _ _ (by omega) i,
      if_pos ⟨Nat.zero_le i, hi, h8⟩]
    exact Nat.mod_eq_of_lt (mod_M32_lt _)
  · unfold pmcntenset_read
    rw [unload_pmcnten, compl32_compl32]
    have hor : ((pmu_unload_go snap (pmu_nevents s) (pmu_nevents s) 0 s).pmcnten % M32) |||
        (snap.state_pmcnten % M32) < M32 := by
      unfold M32
      exact Nat.or_lt_two_pow (mod_M32_lt _) (mod_M32_lt _)
    rw [Nat.mod_eq_of_lt hor, or_and_absorb]
    exact Nat.mod_eq_of_lt (mod_M32_lt _)
  · unfold pmuserenr_read
    rw [unload_pmuserenr]
    exact Nat.mod_eq_of_lt (mod_M32_lt _)
  · rw [pmcr_read_eq, Nat.and_comm, Nat.and_or_distrib_left, and_121_shiftLeft11, Nat.or_zero]
    rw [Nat.and_comm 121 _, Nat.and_assoc, Nat.and_self]
    rw [unload_pmcrFlags, (by decide : PMCR_WRITABLE &&& 121 = 121)]
    rw [Nat.and_assoc, Nat.and_self]

/-- Witness for C7 at a concrete snapshot and a concrete pre-state whose
mask disagrees with the snapshot in both directions. -/
theorem c7_restore_writes_witness :
    0 < pmu_nevents stateC7w ∧
    pmevtyper_read (pmu_unload snapC7w stateC7w) 0 = 40 ∧
    pmcntenset_read (pmu_unload snapC7w stateC7w) = 5 ∧
    pmuserenr_read (pmu_unload snapC7w stateC7w) = 1 ∧
    pmcr_read (pmu_unload snapC7w stateC7w) &&& 121 = 89 := by
  have h := c7_restore_writes snapC7w stateC7w
  refine ⟨by decide, ?_, ?_, ?_, ?_⟩
  · rw [h.1 0 (by decide) (by decide)]
    decide
  · rw [h.2.1]
    decide
  · rw [h.2.2.1]
    decide
  · rw [h.2.2.2]
    decide

theorem band_true_elim {a b : Bool} (h : (a && b) = true) : a = true ∧ b = true := by
  cases a <;> cases b <;> simp_all

theorem read_after_mask_clear (s s2 : PMU) (event b : Nat)
    (hnev : pmu_nevents s2 = pmu_nevents s)
    (hget : ∀ m, pmevtyper_get s2 m = pmevtyper_get s m)
    (hclear : ∀ j, (pmcntenset_read s2).testBit j = true →
      (pmcntenset_read s).testBit j = true ∧ j ≠ b)
    (huniq : ∀ j, j < pmu_nevents s → (pmcnten_get s).testBit j = true →
      pmevtyper_get s j = event → j = b) :
    pmcnten_get_event_bit s2 event = PMU_RETURN_EVENT_NO_WATCH := by
  unfold pmcnten_get_event_bit
  apply get_event_bit_go_none
  intro j hj hAnd hm
  have hj2 : j < pmu_nevents s := hnev ▸ hj
  have hj32 : j < 32 := lt_trans hj2 (pmu_nevents_lt s)
  have htb : (pmcnten_get s2).testBit j = true := (and_shift_ne_iff hj32).mp hAnd
  rw [testBit_pmcnten_get] at htb
  have h1 : (pmcntenset_read s2).testBit j = true := (band_true_elim htb).1
  obtain ⟨h2, h3⟩ := hclear j h1
  apply h3
  apply huniq j hj2
  · rw [testBit_pmcnten_get, h2]
    simp [hj2]
  · rw [← hget j]
    exact hm

theorem get_fst_of_no_watch (s2 : PMU) (event flags2 : Nat)
    (h : pmcnten_get_event_bit s2 event = PMU_RETURN_EVENT_NO_WATCH) :
    (pmu_event_get s2 event flags2 false).1 = PMU_RETURN_EVENT_NO_WATCH := by
  unfold pmu_event_get
  rw [h, if_pos (by decide : PMU_RETURN_EVENT_NO_WATCH < 0)]

/-- Claim C6: remove returns EventNotWatched without touching the state
when the event is unbound; otherwise it succeeds, clears the bound
slot's enable bit, additionally clears the next slot's enable bit
exactly when that slot exists below N and its event-type register holds
the chain marker, resets no count register and no event-type register,
and, provided the event was bound to a unique slot, a subsequent read
fails with EventNotWatched. -/
theorem c6_remove_behavior (s : PMU) (event flags flags2 : Nat) :
    (pmcnten_get_event_bit s event < 0 →
      pmu_event_remove s event flags = (PMU_RETURN_EVENT_NO_WATCH, s)) ∧
    (∀ b : Nat, pmcnten_get_event_bit s event = (b : Int) →
      (pmu_event_remove s event flags).1 = PMU_RETURN_SUCCESS ∧
      (pmu_event_remove s event flags).2.pmevcnt = s.pmevcnt ∧
      (pmu_event_remove s event flags).2.pmevtype = s.pmevtype ∧
      (∀ j, (pmcntenset_read (pmu_event_remove s event flags).2).testBit j =
        ((pmcntenset_read s).testBit j && !decide (j = b) &&
          (if b + 1 < pmu_nevents s ∧ pmevtyper_get s (b + 1) = EVT_CHAIN
            then !decide (j = b + 1) else true))) ∧
      ((∀ j, j < pmu_nevents s → (pmcnten_get s).testBit j = true →
          pmevtyper_get s j = event → j = b) →
        (pmu_event_get (pmu_event_remove s event flags).2 event flags2 false).1 =
          PMU_RETURN_EVENT_NO_WATCH)) := by
  constructor
  · intro h
    have he := get_event_bit_neg s event h
    simp only [pmu_event_remove]
    rw [he, if_pos (by decide : PMU_RETURN_EVENT_NO_WATCH < 0)]
  · intro b hb
    obtain ⟨b2, hb2, hbn, hbe, hbm⟩ :=
      get_event_bit_nonneg s event (by rw [hb]; exact Int.natCast_nonneg b)
    have hbb : b2 = b := by
      rw [hb] at hb2
      exact_mod_cast hb2.symm
    rw [hbb] at hbn hbe hbm
    have hb32 : b < 32 := lt_trans hbn (pmu_nevents_lt s)
    have hnev1 : pmu_nevents (pmcnten_disable s b) = pmu_nevents s := rfl
    have hget1 : ∀ m, pmevtyper_get (pmcnten_disable s b) m = pmevtyper_get s m := fun m => rfl
    by_cases h1 : b + 1 < pmu_nevents s
    · by_cases h2 : pmevtyper_get s (b + 1) = EVT_CHAIN
      · have hrem : pmu_event_remove s event flags =
            (PMU_RETURN_SUCCESS, pmcnten_disable (pmcnten_disable s b) (b + 1)) := by
          simp only [pmu_event_remove]
          rw [hb, if_neg (by omega : ¬ ((b : Int) < 0))]
          simp only [Int.toNat_natCast, hnev1, hget1]
          rw [if_pos h1, if_pos h2]
        rw [hrem]
        have hset : ∀ j, (pmcntenset_read
            (pmcnten_disable (pmcnten_disable s b) (b + 1))).testBit j =
            ((pmcntenset_read s).testBit j && !decide (j = b) && !decide (j = b + 1)) := by
          intro j
          rw [testBit_pmcnten_disable (pmcnten_disable s b) (b + 1)
              (by have := pmu_nevents_lt s; omega) j,
            testBit_pmcnten_disable s b hb32 j]
        refine ⟨rfl, rfl, rfl, ?_, ?_⟩
        · intro j
          rw [hset j, if_pos ⟨h1, h2⟩]
        · intro huniq
          apply get_fst_of_no_watch
          apply read_after_mask_clear s (pmcnten_disable (pmcnten_disable s b) (b + 1))
            event b rfl (fun m => rfl) ?_ huniq
          intro j hj
          rw [hset j] at hj
          have h3 := band_true_elim hj
          have h4 := band_true_elim h3.1
          refine ⟨h4.1, ?_⟩
          have := h4.2
          simp at this
          exact this
      · have hrem : pmu_event_remove s event flags =
            (PMU_RETURN_SUCCESS, pmcnten_disable s b) := by
          simp only [pmu_event_remove]
          rw [hb, if_neg (by omega : ¬ ((b : Int) < 0))]
          simp only [Int.toNat_natCast, hnev1, hget1]
          rw [if_pos h1, if_neg h2]
        rw [hrem]
        refine ⟨rfl, rfl, rfl, ?_, ?_⟩
        · intro j
          rw [testBit_pmcnten_disable s b hb32 j, if_neg (by tauto), Bool.and_true]
        · intro huniq
          apply get_fst_of_no_watch
          apply read_after_mask_clear s (pmcnten_disable s b) event b rfl (fun m => rfl)
            ?_ huniq
          intro j hj
          rw [testBit_pmcnten_disable s b hb32 j] at hj
          have h4 := band_true_elim hj
          refine ⟨h4.1, ?_⟩
          have := h4.2
          simp at this
          exact this
    · have hrem : pmu_event_remove s event flags =
          (PMU_RETURN_SUCCESS, pmcnten_disable s b) := by
        simp only [pmu_event_remove]
        rw [hb, if_neg (by omega : ¬ ((b : Int) < 0))]
        simp only [Int.toNat_natCast, hnev1, hget1]
        rw [if_neg h1]
      rw [hrem]
      refine ⟨rfl, rfl, rfl, ?_, ?_⟩
      · intro j
        rw [testBit_pmcnten_disable s b hb32 j, if_neg (by tauto), Bool.and_true]
      · intro huniq
        apply get_fst_of_no_watch
        apply read_after_mask_clear s (pmcnten_disable s b) event b rfl (fun m => rfl)
          ?_ huniq
        intro j hj
        rw [testBit_pmcnten_disable s b hb32 j] at hj
        have h4 := band_true_elim hj
        refine ⟨h4.1, ?_⟩
        have := h4.2
        simp at this
        exact this

/-- Witness for C6 at a concrete state: removing the event bound to
slot 0 succeeds, tears down the chained pair, leaves the counts in
place, and a subsequent read fails with EventNotWatched. -/
theorem c6_remove_behavior_witness :
    (pmu_event_remove stateC6w 17 0).1 = PMU_RETURN_SUCCESS ∧
    (pmu_event_remove stateC6w 17 0).2.pmevcnt = stateC6w.pmevcnt ∧
    (pmcntenset_read (pmu_event_remove stateC6w 17 0).2).testBit 0 = false ∧
    (pmu_event_get (pmu_event_remove stateC6w 17 0).2 17 0 false).1 =
      PMU_RETURN_EVENT_NO_WATCH := by
  have h := (c6_remove_behavior stateC6w 17 0 0).2 0 (by decide)
  refine ⟨h.1, h.2.1, ?_, h.2.2.2.2 (by decide)⟩
  rw [h.2.2.2.1 0]
  decide

end ArmPmu
